import Mathlib

/-!
Verification of the Quorum orchestration layer against its specification.

The definitions below are shallow embeddings of the TypeScript source:

* `ParticipantTracker.*` — `packages/recorder` `ParticipantTracker`
  (`updateParticipant`, `checkForLeftParticipants`, the per-tick poll loop).
* `processRecordingJob` — the capture job handler
  (`apps/worker/src/processors/recording-processor.ts`, the variant with
  streaming and webhooks), modelled as the sequence of externally visible
  effects it performs plus whether it threw.
* `chunkTicks` / `emitChunks` — the chunk relay loop inside the capture
  handler (interval ticks over the growing output file, plus the final
  partial chunk block).
* `processEncodingJob` — the transcode job handler
  (`apps/worker/src/processors/encoding-processor.ts`).
* `deliverWebhook` / `WebhookService.trigger` — the webhook fan-out
  (`apps/api/src/services/webhook.ts`), including the inline retry
  recursion and the backoff formula, and a full executable HMAC-SHA256
  (FIPS 180-4 / RFC 2104) standing for node's `createHmac("sha256", _)`.
* `startEncodingRoute` — `POST /jobs/encodings/start`
  (`apps/api/src/routes/jobs.ts`).

Machine integers are modelled as `Nat` with explicit `% 2^32` where the
source relies on 32-bit wrap-around (SHA-256 only); JavaScript `Map`s are
insertion-ordered association lists; `undefined` fields are `Option`.
-/

namespace Quorum

/-! ### Participant Diff Tracker (packages/recorder, ParticipantTracker) -/

/-- Participant record as stored in the tracker's `participants` map.
`isPresenting` is `Option Bool` because the Teams/Slack pollers never set
the field (it is `undefined` in the source); `leftAt` is set only by
`checkForLeftParticipants` / `stopTracking`.  Timestamps are abstract
clock readings (`Nat`). -/
structure Participant where
  id : String
  name : String
  isMuted : Bool
  isSpeaking : Bool
  isPresenting : Option Bool
  role : String
  joinedAt : Nat
  leftAt : Option Nat
deriving Repr, DecidableEq

inductive ParticipantEventType
  | joined | left | speaking_start | speaking_end
  | muted | unmuted | presenting_start | presenting_end
deriving Repr, DecidableEq

structure ParticipantEvent where
  type : ParticipantEventType
  participant : Participant
  timestamp : Nat
deriving Repr, DecidableEq

/-- Insertion-ordered association list standing for the JS `Map`:
`set` on an existing key updates it in place, otherwise appends. -/
def PMap := List (String × Participant)

def setP (m : PMap) (k : String) (v : Participant) : PMap :=
  match m with
  | [] => [(k, v)]
  | (k', v') :: rest => if k' = k then (k, v) :: rest else (k', v') :: setP rest k v

def getP (m : PMap) (k : String) : Option Participant :=
  match m with
  | [] => none
  | (k', v') :: rest => if k' = k then some v' else getP rest k

/-- The three flag-transition push blocks of `updateParticipant`
(speaking, muted, presenting — emitted in that order when the stored
value differs from the snapshot's). -/
def flagChangeEvents (existing p : Participant) (now : Nat) : List ParticipantEvent :=
  (if existing.isSpeaking ≠ p.isSpeaking then
    [⟨if p.isSpeaking then .speaking_start else .speaking_end, p, now⟩] else [])
  ++ (if existing.isMuted ≠ p.isMuted then
    [⟨if p.isMuted then .muted else .unmuted, p, now⟩] else [])
  ++ (if existing.isPresenting ≠ p.isPresenting then
    [⟨if p.isPresenting = some true then .presenting_start else .presenting_end, p, now⟩] else [])

/-- `ParticipantTracker.updateParticipant`: a snapshot participant `p`
(as built by the pollers: no `isPresenting`, no `leftAt`) is merged into
the map.  New id: insert with `joinedAt := now` and emit `joined`.
Known id: emit the flag-transition events, then store
`{...existing, ...p, joinedAt: existing.joinedAt}`; since the snapshot
object carries no `isPresenting`/`leftAt` keys, those stay the existing
values.  Returns the new map and the emitted events. -/
def updateParticipant (m : PMap) (p : Participant) (now : Nat) :
    PMap × List ParticipantEvent :=
  match getP m p.id with
  | none =>
      let p' : Participant := { p with joinedAt := now }
      (setP m p.id p', [⟨.joined, p', now⟩])
  | some existing =>
      let merged : Participant :=
        { id := p.id, name := p.name, isMuted := p.isMuted, isSpeaking := p.isSpeaking,
          isPresenting := existing.isPresenting, role := p.role,
          joinedAt := existing.joinedAt, leftAt := existing.leftAt }
      (setP m p.id merged, flagChangeEvents existing p now)

/-- `ParticipantTracker.checkForLeftParticipants`: every tracked
participant absent from `currentIds` and with no `leftAt` gets
`leftAt := now` and emits one `left` event (map iteration order). -/
def checkForLeftParticipants (m : PMap) (currentIds : List String) (now : Nat) :
    PMap × List ParticipantEvent :=
  match m with
  | [] => ([], [])
  | (k, part) :: rest =>
      if ¬ currentIds.contains k ∧ part.leftAt = none then
        ((k, { part with leftAt := some now }) ::
            (checkForLeftParticipants rest currentIds now).1,
          ⟨.left, { part with leftAt := some now }, now⟩ ::
            (checkForLeftParticipants rest currentIds now).2)
      else
        ((k, part) :: (checkForLeftParticipants rest currentIds now).1,
          (checkForLeftParticipants rest currentIds now).2)

/-- Fold `updateParticipant` over a snapshot, concatenating events in
emission order (the body of the per-platform poll loop). -/
def updateAll (m : PMap) (snaps : List Participant) (now : Nat) :
    PMap × List ParticipantEvent :=
  match snaps with
  | [] => (m, [])
  | p :: rest =>
      ((updateAll (updateParticipant m p now).1 rest now).1,
        (updateParticipant m p now).2 ++ (updateAll (updateParticipant m p now).1 rest now).2)

/-- One poll tick for a non-transient source (`pollTeamsParticipants` /
`pollSlackParticipants`): update every snapshot participant, then check
the complete id set for departures. -/
def pollTick (m : PMap) (snaps : List Participant) (now : Nat) :
    PMap × List ParticipantEvent :=
  ((checkForLeftParticipants (updateAll m snaps now).1 (snaps.map (·.id)) now).1,
    (updateAll m snaps now).2 ++
      (checkForLeftParticipants (updateAll m snaps now).1 (snaps.map (·.id)) now).2)

/-- Run a sequence of poll ticks (snapshot, clock reading). -/
def runTicks (m : PMap) (ticks : List (List Participant × Nat)) :
    PMap × List ParticipantEvent :=
  match ticks with
  | [] => (m, [])
  | (snaps, now) :: rest =>
      ((runTicks (pollTick m snaps now).1 rest).1,
        (pollTick m snaps now).2 ++ (runTicks (pollTick m snaps now).1 rest).2)

/-- Snapshot participant A as the pollers would build it. -/
def snapA : Participant :=
  { id := "alice", name := "Alice", isMuted := false, isSpeaking := false,
    isPresenting := none, role := "attendee", joinedAt := 0, leftAt := none }

/-- Snapshot participant B as the pollers would build it. -/
def snapB : Participant :=
  { id := "bob", name := "Bob", isMuted := false, isSpeaking := false,
    isPresenting := none, role := "attendee", joinedAt := 0, leftAt := none }

/-- A tracked participant who has already been marked left at time 4. -/
def demoLeftAlice : Participant := { snapA with leftAt := some 4 }

/-- Tracker map holding only the already-left participant. -/
def demoLeftMap : PMap := [("alice", demoLeftAlice)]

/-- One later tick in which A reappears in the snapshot. -/
def demoReappearTicks : List (List Participant × Nat) := [([snapA], 5)]

/-! ### Session / Artifact statuses and webhook events (packages/db schema) -/

inductive MeetingStatus | PENDING | RECORDING | COMPLETED | FAILED
deriving Repr, DecidableEq

inductive RecordingStatus | RAW | ENCODING | ENCODED | FAILED
deriving Repr, DecidableEq

inductive WebhookEvt
  | MEETING_STARTED | MEETING_COMPLETED | MEETING_FAILED | RECORDING_READY
  | ENCODING_STARTED | ENCODING_COMPLETED | ENCODING_FAILED | STREAM_CHUNK_READY
deriving Repr, DecidableEq

/-! ### Capture job handler (worker recording processor, `processRecordingJob`) -/

/-- State of the recorder's output file when the handler reads it back
(`readFile`/`stat`): absent (ENOENT, `readFile` throws) or present with a
byte size.  A zero-byte file is `present 0`. -/
inductive FileState | missing | present (size : Nat)
deriving Repr, DecidableEq

/-- Externally visible effects of the capture job handler, in program
order.  `streamChunk idx final` is a `streamingService.streamChunk` call;
the interval-driven chunk relay that runs concurrently with the capture
is modelled separately by `emitChunks` below, so only the final-chunk
send appears in this trace. -/
inductive RecordingFx
  | setMeetingStatus (s : MeetingStatus)
  | webhook (e : WebhookEvt)
  | notifyStreamStart
  | streamChunk (index : Nat) (isFinal : Bool)
  | notifyStreamEnd
  | uploadVideo (size : Nat)
  | uploadHar
  | createRecording (st : RecordingStatus) (fileSize : Nat)
  | enqueueEncoding
  | updateProgress (n : Nat)
deriving Repr, DecidableEq

/-- Environment of one capture job run: whether the bot account row
exists, whether the external recorder reported success, the output file
state at read-back, whether the recorder produced a HAR file, whether any
active stream config exists, how many interval chunks were sent while
recording, and whether unsent bytes remained at completion. -/
structure CaptureInput where
  botFound : Bool
  captureSuccess : Bool
  outputFile : FileState
  hasHar : Bool
  hasStreamConfigs : Bool
  intervalChunksSent : Nat
  finalChunkPending : Bool
deriving Repr, DecidableEq

structure CaptureRun where
  trace : List RecordingFx
  failed : Bool
deriving Repr, DecidableEq

/-- The capture handler `processRecordingJob`: set RECORDING, notify
start events, run the recorder; on success send the final partial chunk
(only if stream configs exist and unsent bytes remain), notify stream
end, upload, create the RAW `Recording` row, set COMPLETED and notify.
Any throw (missing bot account, recorder failure, `readFile` ENOENT)
lands in the catch block: stream end, status FAILED, MEETING_FAILED
webhook, re-throw.  Note there is no zero-byte check and no call that
enqueues an encoding job anywhere in the handler. -/
def processRecordingJob (i : CaptureInput) : CaptureRun :=
  let pre : List RecordingFx :=
    [.setMeetingStatus .RECORDING, .webhook .MEETING_STARTED, .notifyStreamStart]
  let catchTail : List RecordingFx :=
    [.notifyStreamEnd, .setMeetingStatus .FAILED, .webhook .MEETING_FAILED]
  if ¬ i.botFound then ⟨pre ++ catchTail, true⟩
  else if ¬ i.captureSuccess then ⟨pre ++ catchTail, true⟩
  else
    let finalChunk : List RecordingFx :=
      if i.hasStreamConfigs ∧ i.finalChunkPending then
        [.streamChunk i.intervalChunksSent true] else []
    match i.outputFile with
    | .missing => ⟨pre ++ finalChunk ++ [.notifyStreamEnd] ++ catchTail, true⟩
    | .present size =>
        ⟨pre ++ finalChunk ++ [.notifyStreamEnd, .uploadVideo size]
          ++ (if i.hasHar then [.uploadHar] else [])
          ++ [.createRecording .RAW size, .setMeetingStatus .COMPLETED,
              .webhook .MEETING_COMPLETED, .webhook .RECORDING_READY, .updateProgress 100],
          false⟩

/-- Last `db.meeting.update` status written by a trace. -/
def lastMeetingStatus (t : List RecordingFx) : Option MeetingStatus :=
  t.foldl (fun acc fx => match fx with | .setMeetingStatus s => some s | _ => acc) none

/-- Number of `db.recording.create` calls in a trace. -/
def recordingsCreated (t : List RecordingFx) : Nat :=
  t.countP (fun fx => match fx with | .createRecording _ _ => true | _ => false)

/-- Number of encoding-queue `add` calls in a trace. -/
def encodingJobsEnqueued (t : List RecordingFx) : Nat :=
  t.countP (fun fx => match fx with | .enqueueEncoding => true | _ => false)

/-- Capture run whose recorder succeeded but left a zero-byte file. -/
def zeroByteCapture : CaptureInput :=
  { botFound := true, captureSuccess := true, outputFile := .present 0,
    hasHar := false, hasStreamConfigs := false, intervalChunksSent := 0,
    finalChunkPending := false }

/-- Capture run whose recorder succeeded but whose output file vanished. -/
def missingFileCapture : CaptureInput :=
  { zeroByteCapture with outputFile := .missing }

/-- Fully successful capture run (100 output bytes, no streaming). -/
def successfulCapture : CaptureInput :=
  { zeroByteCapture with outputFile := .present 100 }

/-! ### Encodings route (`POST /jobs/encodings/start`, apps/api jobs routes) -/

/-- Recording row fields the route reads. -/
structure RecordingRow where
  id : String
  organizationId : String
  filePath : String
deriving Repr, DecidableEq

/-- Payload of an encoding queue job (`EncodingJobData`). -/
structure EncodingJobData where
  recordingId : String
  organizationId : String
  rawFilePath : String
  outputFormat : String
deriving Repr, DecidableEq

/-- `POST /jobs/encodings/start`: looks up the recording; if absent,
throws NotFoundError (second component `true`) and enqueues nothing;
otherwise enqueues exactly one encoding job with `outputFormat`
defaulting to "webm".  This route is the only place an encoding job is
enqueued. -/
def startEncodingRoute (rec : Option RecordingRow) (outputFormat : Option String) :
    List EncodingJobData × Bool :=
  match rec with
  | none => ([], true)
  | some r =>
      ([{ recordingId := r.id, organizationId := r.organizationId,
          rawFilePath := r.filePath, outputFormat := outputFormat.getD "webm" }], false)

/-! ### Transcode job handler (worker encoding processor, `processEncodingJob`) -/

inductive EncodingFx
  | setRecordingStatus (s : RecordingStatus)
  | webhook (e : WebhookEvt)
  | downloadRaw
  | runEncoder
  | uploadEncoded (size : Nat)
  | unlinkRawFile
  | unlinkEncodedFile
  | updateProgress (n : Nat)
deriving Repr, DecidableEq

/-- Environment of one encoding job run: whether the raw download from
object storage yields a stream, whether the external encoder succeeds,
the encoded size, and whether the two `unlink` calls succeed (the
cleanup block is one try: a failing first `unlink` skips the second and
is only logged). -/
structure EncodingInput where
  downloadOk : Bool
  encodeSuccess : Bool
  encodedSize : Nat
  rawUnlinkOk : Bool
  encodedUnlinkOk : Bool
deriving Repr, DecidableEq

structure EncodingRun where
  trace : List EncodingFx
  failed : Bool
deriving Repr, DecidableEq

/-- The transcode handler `processEncodingJob`: set ENCODING, notify,
download the raw file, run the encoder; on success upload the encoded
file, set ENCODED, then attempt the local-file cleanup (success path
only), notify completion.  On any throw the catch block sets FAILED,
notifies failure and re-throws — it performs no `unlink`. -/
def processEncodingJob (i : EncodingInput) : EncodingRun :=
  let pre : List EncodingFx := [.setRecordingStatus (.ENCODING), .webhook .ENCODING_STARTED]
  let catchTail : List EncodingFx := [.setRecordingStatus (.FAILED), .webhook .ENCODING_FAILED]
  if ¬ i.downloadOk then ⟨pre ++ catchTail, true⟩
  else if ¬ i.encodeSuccess then ⟨pre ++ [.downloadRaw, .runEncoder] ++ catchTail, true⟩
  else
    let cleanup : List EncodingFx :=
      if i.rawUnlinkOk then
        .unlinkRawFile :: (if i.encodedUnlinkOk then [.unlinkEncodedFile] else [])
      else []
    ⟨pre ++ [.downloadRaw, .runEncoder, .uploadEncoded i.encodedSize,
        .setRecordingStatus (.ENCODED)] ++ cleanup
      ++ [.webhook .ENCODING_COMPLETED, .updateProgress 100],
      false⟩

/-- Encoding run in which the encoder fails. -/
def failingEncode : EncodingInput :=
  { downloadOk := true, encodeSuccess := false, encodedSize := 0,
    rawUnlinkOk := true, encodedUnlinkOk := true }

/-- Fully successful encoding run. -/
def successfulEncode : EncodingInput :=
  { failingEncode with encodeSuccess := true, encodedSize := 42 }

/-! ### Chunk relay loop (capture handler interval + final-chunk block) -/

/-- One `streamChunk` call as seen by a destination: the running
`chunkIndex`, the `metadata.chunkSize`, and whether `metadata.isFinal`
was set (it is set only by the final-chunk block). -/
structure StreamChunkMsg where
  index : Nat
  size : Nat
  isFinal : Bool
deriving Repr, DecidableEq

/-- The interval ticks: at each tick the handler stats the output file
(`none` = stat failed); if the size exceeds `lastStreamedSize` it sends
a chunk with the current `chunkIndex` (then increments it) and advances
`lastStreamedSize`.  Returns the chunks plus the final counter values. -/
def chunkTicks (index lastSize : Nat) : List (Option Nat) → List StreamChunkMsg × Nat × Nat
  | [] => ([], index, lastSize)
  | none :: rest => chunkTicks index lastSize rest
  | some s :: rest =>
      if lastSize < s then
        (⟨index, s - lastSize, false⟩ :: (chunkTicks (index + 1) s rest).1,
          (chunkTicks (index + 1) s rest).2)
      else chunkTicks index lastSize rest

/-- Full chunk emission for one capture session: the interval ticks
followed by the final-chunk block, which sends one chunk marked
`isFinal` only when the completed file still has unsent bytes. -/
def emitChunks (ticks : List (Option Nat)) (finalStat : Option Nat) : List StreamChunkMsg :=
  match finalStat with
  | some s =>
      if (chunkTicks 0 0 ticks).2.2 < s then
        (chunkTicks 0 0 ticks).1 ++
          [⟨(chunkTicks 0 0 ticks).2.1, s - (chunkTicks 0 0 ticks).2.2, true⟩]
      else (chunkTicks 0 0 ticks).1
  | none => (chunkTicks 0 0 ticks).1

/-! ### Webhook fan-out (apps/api webhook service) -/

/-- Webhook row fields the delivery path reads (db `Webhook` model).
`headers` are the operator-supplied extra headers spread last into the
request header object. -/
structure Webhook where
  id : String
  organizationId : String
  url : String
  secret : String
  events : List WebhookEvt
  isActive : Bool
  retryCount : Nat
  timeoutMs : Nat
  headers : List (String × String)
deriving Repr, DecidableEq

/-- `Math.pow(2, attempt) * 1000`: the sleep inserted after failed
attempt number `attempt` before the recursive retry (both the non-2xx
and the thrown-error branch use this formula; there is no ceiling). -/
def webhookBackoffMs (attempt : Nat) : Nat := 2 ^ attempt * 1000

/-- Outcome of one `deliverWebhook` call chain: whether it ultimately
succeeded, how many HTTP attempts it performed before returning, how
many `webhookDelivery` rows it created (one per attempt, created before
each request), and the total backoff time it slept inline. -/
structure DeliveryRun where
  success : Bool
  attemptsMade : Nat
  recordsCreated : Nat
  totalSleepMs : Nat
deriving Repr, DecidableEq

/-- The recursion of `deliverWebhook`, with `responds attempt = true`
meaning the HTTP POST of that attempt got a 2xx.  On failure with
`attempt < webhook.retryCount` the source awaits the backoff sleep and
recursively re-delivers with `attempt + 1` — all before returning.
`fuel` only bounds the recursion for Lean; `deliverWebhook` supplies
enough fuel that the `fuel = 0` branch is never reached. -/
def deliverWebhookAux (w : Webhook) (responds : Nat → Bool) :
    Nat → Nat → DeliveryRun
  | attempt, fuel =>
    if responds attempt then
      { success := true, attemptsMade := 1, recordsCreated := 1, totalSleepMs := 0 }
    else if attempt < w.retryCount then
      match fuel with
      | 0 => { success := false, attemptsMade := 1, recordsCreated := 1, totalSleepMs := 0 }
      | f + 1 =>
          { success := (deliverWebhookAux w responds (attempt + 1) f).success,
            attemptsMade := 1 + (deliverWebhookAux w responds (attempt + 1) f).attemptsMade,
            recordsCreated := 1 + (deliverWebhookAux w responds (attempt + 1) f).recordsCreated,
            totalSleepMs :=
              webhookBackoffMs attempt +
                (deliverWebhookAux w responds (attempt + 1) f).totalSleepMs }
    else
      { success := false, attemptsMade := 1, recordsCreated := 1, totalSleepMs := 0 }

/-- `deliverWebhook(webhook, payload)` as awaited by its caller: the
recursion starts at attempt 1. -/
def deliverWebhook (w : Webhook) (responds : Nat → Bool) : DeliveryRun :=
  deliverWebhookAux w responds 1 w.retryCount

/-- The `where` filter of `WebhookService.trigger`: same organization,
active, and subscribed to the event. -/
def webhookMatches (w : Webhook) (org : String) (ev : WebhookEvt) : Bool :=
  w.organizationId == org && w.isActive && w.events.contains ev

/-- Aggregate outcome of one `WebhookService.trigger` call. -/
structure TriggerRun where
  results : List DeliveryRun
  deliveryRecordsCreated : Nat
  httpRequestsIssued : Nat
deriving Repr, DecidableEq

/-- `WebhookService.trigger`: query the matching webhooks; if none,
return `[]` without any delivery; otherwise await `deliverWebhook` for
every matching webhook in parallel and return all results (the call
returns only after every retry chain has finished). -/
def trigger (dbWebhooks : List Webhook) (org : String) (ev : WebhookEvt)
    (responds : String → Nat → Bool) : TriggerRun :=
  let matching := dbWebhooks.filter (fun w => webhookMatches w org ev)
  if matching.isEmpty then
    { results := [], deliveryRecordsCreated := 0, httpRequestsIssued := 0 }
  else
    { results := matching.map (fun w => deliverWebhook w (responds w.id)),
      deliveryRecordsCreated :=
        ((matching.map (fun w => deliverWebhook w (responds w.id))).map
          (·.recordsCreated)).sum,
      httpRequestsIssued :=
        ((matching.map (fun w => deliverWebhook w (responds w.id))).map
          (·.attemptsMade)).sum }

/-- A webhook with three configured attempts, subscribed to
MEETING_COMPLETED. -/
def demoWebhook : Webhook :=
  { id := "wh_1", organizationId := "org_1", url := "https://example.com/hook",
    secret := "topsecret", events := [.MEETING_COMPLETED], isActive := true,
    retryCount := 3, timeoutMs := 10000, headers := [] }

/-- An inactive webhook (same data otherwise). -/
def demoInactiveWebhook : Webhook := { demoWebhook with id := "wh_2", isActive := false }

/-- An endpoint that fails every attempt. -/
def alwaysFails : Nat → Bool := fun _ => false

/-! ### Queue job options (`QueueService.addRecordingJob` / `addEncodingJob`) -/

/-- The options object passed to `queue.add`: attempt budget plus the
backoff `{type, delay}` pair.  There is no ceiling/cap field anywhere in
these options. -/
structure JobBackoffOpts where
  attempts : Nat
  backoffType : String
  delayMs : Nat
deriving Repr, DecidableEq

def recordingJobOpts : JobBackoffOpts :=
  { attempts := 3, backoffType := "exponential", delayMs := 5000 }

def encodingJobOpts : JobBackoffOpts :=
  { attempts := 2, backoffType := "exponential", delayMs := 10000 }

/-- Modelled from the spec: the queue broker's built-in "exponential"
backoff strategy (the broker library itself is not part of this
repository; the spec states the delay before retry attempt n equals
`base * 2^(n-1)`, and the job options configure only the base delay —
no ceiling). -/
def bullmqExponentialDelayMs (baseDelayMs n : Nat) : Nat := baseDelayMs * 2 ^ (n - 1)

/-! ### HMAC-SHA256 (standing for node `createHmac("sha256", secret)`)

The crypto primitive the webhook service calls is a node builtin, so it
is embedded here in full from FIPS 180-4 / RFC 2104: SHA-256 over byte
lists with `Nat` arithmetic reduced mod `2^32`, then the HMAC
construction, then hex encoding — validated below against the standard
test vectors. -/

def M32 : Nat := 4294967296

def add32 (a b : Nat) : Nat := (a + b) % M32

def rotr32 (n x : Nat) : Nat := ((x >>> n) ||| (x <<< (32 - n))) % M32

def shr32 (n x : Nat) : Nat := x >>> n

def xor32 (a b : Nat) : Nat := a ^^^ b

def and32 (a b : Nat) : Nat := a &&& b

def not32 (a : Nat) : Nat := a ^^^ 4294967295

def ch32 (x y z : Nat) : Nat := xor32 (and32 x y) (and32 (not32 x) z)

def maj32 (x y z : Nat) : Nat := xor32 (xor32 (and32 x y) (and32 x z)) (and32 y z)

def bigSigma0 (x : Nat) : Nat := xor32 (xor32 (rotr32 2 x) (rotr32 13 x)) (rotr32 22 x)

def bigSigma1 (x : Nat) : Nat := xor32 (xor32 (rotr32 6 x) (rotr32 11 x)) (rotr32 25 x)

def smallSigma0 (x : Nat) : Nat := xor32 (xor32 (rotr32 7 x) (rotr32 18 x)) (shr32 3 x)

def smallSigma1 (x : Nat) : Nat := xor32 (xor32 (rotr32 17 x) (rotr32 19 x)) (shr32 10 x)

/-- The 64 SHA-256 round constants (FIPS 180-4 §4.2.2), in decimal. -/
def sha256K : List Nat :=
  [1116352408, 1899447441, 3049323471, 3921009573, 961987163, 1508970993,
   2453635748, 2870763221, 3624381080, 310598401, 607225278, 1426881987,
   1925078388, 2162078206, 2614888103, 3248222580, 3835390401, 4022224774,
   264347078, 604807628, 770255983, 1249150122, 1555081692, 1996064986,
   2554220882, 2821834349, 2952996808, 3210313671, 3336571891, 3584528711,
   113926993, 338241895, 666307205, 773529912, 1294757372, 1396182291,
   1695183700, 1986661051, 2177026350, 2456956037, 2730485921, 2820302411,
   3259730800, 3345764771, 3516065817, 3600352804, 4094571909, 275423344,
   430227734, 506948616, 659060556, 883997877, 958139571, 1322822218,
   1537002063, 1747873779, 1955562222, 2024104815, 2227730452, 2361852424,
   2428436474, 2756734187, 3204031479, 3329325298]

structure Sha256State where
  a : Nat
  b : Nat
  c : Nat
  d : Nat
  e : Nat
  f : Nat
  g : Nat
  h : Nat
deriving Repr, DecidableEq

/-- The eight SHA-256 initial hash values (FIPS 180-4 §5.3.3), in decimal. -/
def sha256Init : Sha256State :=
  ⟨1779033703, 3144134277, 1013904242, 2773480762,
    1359893119, 2600822924, 528734635, 1541459225⟩

/-- Big-endian byte serialization of `v` into `n` bytes. -/
def bytesBE (n v : Nat) : List Nat :=
  (List.range n).map (fun i => (v >>> (8 * (n - 1 - i))) % 256)

/-- FIPS 180-4 padding: 0x80, zeros to 56 mod 64, 8-byte bit length. -/
def sha256Pad (msg : List Nat) : List Nat :=
  msg ++ [0x80] ++ List.replicate ((119 - msg.length % 64) % 64) 0 ++ bytesBE 8 (msg.length * 8)

def toBlocksFuel : Nat → List Nat → List (List Nat)
  | 0, _ => []
  | _, [] => []
  | fuel + 1, l => l.take 64 :: toBlocksFuel fuel (l.drop 64)

def toBlocks (l : List Nat) : List (List Nat) := toBlocksFuel l.length l

def wordsOfBlock (b : List Nat) : List Nat :=
  (List.range 16).map (fun i =>
    (b.getD (4 * i) 0) * 16777216 + (b.getD (4 * i + 1) 0) * 65536 +
      (b.getD (4 * i + 2) 0) * 256 + b.getD (4 * i + 3) 0)

/-- Extend the 16 block words to the 64-entry message schedule. -/
def messageSchedule (b : List Nat) : List Nat :=
  ((List.range 48).foldl
    (fun w j =>
      w.push (add32 (add32 (smallSigma1 (w.getD (j + 14) 0)) (w.getD (j + 9) 0))
        (add32 (smallSigma0 (w.getD (j + 1) 0)) (w.getD j 0))))
    (wordsOfBlock b).toArray).toList

def sha256Round (k wt : Nat) (s : Sha256State) : Sha256State :=
  let t1 := add32 s.h (add32 (bigSigma1 s.e) (add32 (ch32 s.e s.f s.g) (add32 k wt)))
  let t2 := add32 (bigSigma0 s.a) (maj32 s.a s.b s.c)
  ⟨add32 t1 t2, s.a, s.b, s.c, add32 s.d t1, s.e, s.f, s.g⟩

def compressBlock (hs : Sha256State) (b : List Nat) : Sha256State :=
  let s := (sha256K.zip (messageSchedule b)).foldl (fun s kw => sha256Round kw.1 kw.2 s) hs
  ⟨add32 hs.a s.a, add32 hs.b s.b, add32 hs.c s.c, add32 hs.d s.d,
    add32 hs.e s.e, add32 hs.f s.f, add32 hs.g s.g, add32 hs.h s.h⟩

def sha256Bytes (msg : List Nat) : List Nat :=
  let fin := (toBlocks (sha256Pad msg)).foldl compressBlock sha256Init
  bytesBE 4 fin.a ++ bytesBE 4 fin.b ++ bytesBE 4 fin.c ++ bytesBE 4 fin.d ++
    bytesBE 4 fin.e ++ bytesBE 4 fin.f ++ bytesBE 4 fin.g ++ bytesBE 4 fin.h

/-- Lowercase hex digit for a nibble (48 = digit zero, 87 + 10 = letter a). -/
def hexDigitChar (n : Nat) : Char :=
  if n < 10 then Char.ofNat (48 + n) else Char.ofNat (87 + n)

/-- Lowercase hex encoding (node `.digest("hex")`). -/
def bytesToHex (bs : List Nat) : String :=
  String.mk (bs.foldr
    (fun b acc => hexDigitChar (b / 16 % 16) :: hexDigitChar (b % 16) :: acc) [])

def utf8EncodeChar (c : Nat) : List Nat :=
  if c < 0x80 then [c]
  else if c < 0x800 then [0xC0 + c / 64, 0x80 + c % 64]
  else if c < 0x10000 then [0xE0 + c / 4096, 0x80 + c / 64 % 64, 0x80 + c % 64]
  else [0xF0 + c / 262144, 0x80 + c / 4096 % 64, 0x80 + c / 64 % 64, 0x80 + c % 64]

/-- UTF-8 bytes of a string (node hashes the utf-8 encoding). -/
def strBytes (s : String) : List Nat :=
  s.data.foldr (fun c acc => utf8EncodeChar c.toNat ++ acc) []

/-- RFC 2104 HMAC with SHA-256 (block size 64). -/
def hmacSha256 (key msg : List Nat) : List Nat :=
  let k0 := if 64 < key.length then sha256Bytes key else key
  let k := k0 ++ List.replicate (64 - k0.length) 0
  sha256Bytes ((k.map (fun b => b ^^^ 0x5c)) ++
    sha256Bytes ((k.map (fun b => b ^^^ 0x36)) ++ msg))

/-- `generateSignature(payload, secret)` of the webhook service:
`createHmac("sha256", secret).update(payload).digest("hex")`. -/
def generateSignature (payload secret : String) : String :=
  bytesToHex (hmacSha256 (strBytes secret) (strBytes payload))

/-! ### Webhook request construction (`deliverWebhook` headers and body) -/

def eventName : WebhookEvt → String
  | .MEETING_STARTED => "MEETING_STARTED"
  | .MEETING_COMPLETED => "MEETING_COMPLETED"
  | .MEETING_FAILED => "MEETING_FAILED"
  | .RECORDING_READY => "RECORDING_READY"
  | .ENCODING_STARTED => "ENCODING_STARTED"
  | .ENCODING_COMPLETED => "ENCODING_COMPLETED"
  | .ENCODING_FAILED => "ENCODING_FAILED"
  | .STREAM_CHUNK_READY => "STREAM_CHUNK_READY"

/-- The payload object `{event, timestamp, data}` built by `trigger`;
`dataJson` is the JSON serialization of the `data` object. -/
structure WebhookPayload where
  event : WebhookEvt
  timestamp : String
  dataJson : String
deriving Repr, DecidableEq

/-- `JSON.stringify(payload)` with the object's insertion key order
(event, timestamp, data); event names and ISO timestamps contain no
characters needing escapes. -/
def serializeWebhookPayload (p : WebhookPayload) : String :=
  "\x7b\"event\":\"" ++ eventName p.event ++ "\",\"timestamp\":\"" ++ p.timestamp ++
    "\",\"data\":" ++ p.dataJson ++ "\x7d"

/-- Value of header `k` in a JS header object built from these entries
in order: a later assignment of the same key overrides an earlier one. -/
def headerValue (hs : List (String × String)) (k : String) : Option String :=
  (hs.reverse.find? (fun kv => kv.1 == k)).map (·.2)

/-- The header object of `deliverWebhook`'s fetch: content type, the
`sha256=`-prefixed signature in `X-Webhook-Signature`, event, timestamp
and webhook id headers, then the operator-supplied `webhook.headers`
spread last. -/
def webhookRequestHeaders (w : Webhook) (p : WebhookPayload) : List (String × String) :=
  [("Content-Type", "application/json"),
   ("X-Webhook-Signature", "sha256=" ++ generateSignature (serializeWebhookPayload p) w.secret),
   ("X-Webhook-Event", eventName p.event),
   ("X-Webhook-Timestamp", p.timestamp),
   ("X-Webhook-Id", w.id)] ++ w.headers

/-- The request body: the same `payloadJson` string that was signed. -/
def webhookRequestBody (p : WebhookPayload) : String := serializeWebhookPayload p

/-- A concrete payload for the demo webhook. -/
def demoPayload : WebhookPayload :=
  { event := .MEETING_COMPLETED, timestamp := "2026-01-01T00:00:00.000Z",
    dataJson := "\x7b\"meetingId\":\"m_1\",\"recordingId\":\"r_1\"\x7d" }

end Quorum

namespace Quorum

/-- C5: fed the snapshot sequence [{A}, {A,B}, {B}] over three ticks, the
tracker emits exactly joined(A), joined(B), left(A): A's second appearance
re-emits nothing and A's single absence emits exactly one left. -/
theorem tracker_snapshot_sequence_joined_joined_left :
    ((runTicks [] [([snapA], 1), ([snapA, snapB], 2), ([snapB], 3)]).2.map
      (fun e => (e.type, e.participant.id))) =
    [(.joined, "alice"), (.joined, "bob"), (.left, "alice")] := by
  decide

theorem getP_setP_self (m : PMap) (k : String) (v : Participant) :
    getP (setP m k v) k = some v := by
  induction m with
  | nil => simp [setP, getP]
  | cons hd tl ih =>
      obtain ⟨k', v'⟩ := hd
      by_cases h : k' = k <;> simp [setP, getP, h, ih]

theorem getP_setP_ne (m : PMap) (k pid : String) (v : Participant) (h : k ≠ pid) :
    getP (setP m k v) pid = getP m pid := by
  induction m with
  | nil => simp [setP, getP, h]
  | cons hd tl ih =>
      obtain ⟨k', v'⟩ := hd
      by_cases h' : k' = k
      · subst h'
        simp [setP, getP, h]
      · simp [setP, getP, h', ih]

theorem flagChangeEvents_not_joined (existing p : Participant) (now : Nat) :
    ∀ e ∈ flagChangeEvents existing p now, e.type ≠ .joined := by
  intro e he
  simp only [flagChangeEvents, List.mem_append] at he
  rcases he with (he | he) | he <;>
    · split at he
      · simp only [List.mem_singleton] at he
        subst he
        dsimp only
        split <;> simp
      · simp at he

theorem updateParticipant_preserves (m : PMap) (p : Participant) (now : Nat)
    (pid : String) (ex : Participant) (hget : getP m pid = some ex) :
    (∃ ex', getP (updateParticipant m p now).1 pid = some ex' ∧ ex'.leftAt = ex.leftAt) ∧
    ∀ e ∈ (updateParticipant m p now).2, e.type = .joined → e.participant.id ≠ pid := by
  by_cases hpid : p.id = pid
  · rw [updateParticipant, hpid, hget]
    refine ⟨⟨_, getP_setP_self m pid _, rfl⟩, ?_⟩
    intro e he htype
    exact absurd htype (flagChangeEvents_not_joined ex p now e he)
  · rw [updateParticipant]
    cases hm : getP m p.id with
    | none =>
        refine ⟨⟨ex, ?_, rfl⟩, ?_⟩
        · simpa [getP_setP_ne m p.id pid _ hpid] using hget
        · intro e he _
          simp only [List.mem_singleton] at he
          subst he
          simpa using hpid
    | some existing =>
        refine ⟨⟨ex, ?_, rfl⟩, ?_⟩
        · simpa [getP_setP_ne m p.id pid _ hpid] using hget
        · intro e he htype
          exact absurd htype (flagChangeEvents_not_joined existing p now e he)

theorem checkForLeft_events_left (m : PMap) (ids : List String) (now : Nat) :
    ∀ e ∈ (checkForLeftParticipants m ids now).2, e.type = .left := by
  induction m with
  | nil => simp [checkForLeftParticipants]
  | cons hd tl ih =>
      obtain ⟨k, part⟩ := hd
      intro e he
      rw [checkForLeftParticipants] at he
      split at he
      · simp only [List.mem_cons] at he
        rcases he with he | he
        · subst he; rfl
        · exact ih e he
      · exact ih e he

theorem checkForLeft_getP_left (m : PMap) (ids : List String) (now : Nat)
    (pid : String) (ex : Participant) (t : Nat)
    (hget : getP m pid = some ex) (hleft : ex.leftAt = some t) :
    getP (checkForLeftParticipants m ids now).1 pid = some ex := by
  induction m with
  | nil => simp [getP] at hget
  | cons hd tl ih =>
      obtain ⟨k, part⟩ := hd
      rw [getP] at hget
      by_cases hk : k = pid
      · rw [if_pos hk] at hget
        have hpe : part = ex := by injection hget
        rw [checkForLeftParticipants]
        have hcond : ¬ (¬ ids.contains k = true ∧ part.leftAt = none) := by
          simp [hpe, hleft]
        rw [if_neg hcond]
        simp [getP, hk, hpe]
      · rw [if_neg hk] at hget
        have := ih hget
        rw [checkForLeftParticipants]
        split <;> simpa [getP, hk] using this

theorem updateAll_preserves (snaps : List Participant) (m : PMap) (now : Nat)
    (pid : String) (ex : Participant) (hget : getP m pid = some ex) :
    (∃ ex', getP (updateAll m snaps now).1 pid = some ex' ∧ ex'.leftAt = ex.leftAt) ∧
    ∀ e ∈ (updateAll m snaps now).2, e.type = .joined → e.participant.id ≠ pid := by
  induction snaps generalizing m ex with
  | nil => exact ⟨⟨ex, by simpa [updateAll] using hget, rfl⟩, by simp [updateAll]⟩
  | cons p rest ih =>
      obtain ⟨⟨ex₁, hget₁, hleft₁⟩, hevs₁⟩ := updateParticipant_preserves m p now pid ex hget
      obtain ⟨⟨ex₂, hget₂, hleft₂⟩, hevs₂⟩ := ih _ ex₁ hget₁
      constructor
      · exact ⟨ex₂, by simp [updateAll, hget₂], by rw [hleft₂, hleft₁]⟩
      · intro e he htype
        simp only [updateAll, List.mem_append] at he
        rcases he with he | he
        · exact hevs₁ e he htype
        · exact hevs₂ e he htype

theorem pollTick_preserves (m : PMap) (snaps : List Participant) (now : Nat)
    (pid : String) (ex : Participant) (t : Nat)
    (hget : getP m pid = some ex) (hleft : ex.leftAt = some t) :
    (∃ ex', getP (pollTick m snaps now).1 pid = some ex' ∧ ex'.leftAt = some t) ∧
    ∀ e ∈ (pollTick m snaps now).2, e.type = .joined → e.participant.id ≠ pid := by
  obtain ⟨⟨ex₁, hget₁, hleft₁⟩, hevs₁⟩ := updateAll_preserves snaps m now pid ex hget
  have hleft₁' : ex₁.leftAt = some t := by rw [hleft₁, hleft]
  have hcheck := checkForLeft_getP_left (updateAll m snaps now).1 (snaps.map (·.id)) now
      pid ex₁ t hget₁ hleft₁'
  constructor
  · exact ⟨ex₁, by simp [pollTick, hcheck], hleft₁'⟩
  · intro e he htype
    simp only [pollTick, List.mem_append] at he
    rcases he with he | he
    · exact hevs₁ e he htype
    · have := checkForLeft_events_left (updateAll m snaps now).1 (snaps.map (·.id)) now e he
      rw [this] at htype
      cases htype

end Quorum

namespace Quorum

/-- C9: once a tracked participant's `leftAt` is set, any number of later
poll ticks (in which the participant may reappear) never emits another
`joined` event for them and never clears `leftAt`. -/
theorem tracker_left_participant_stays_left (m : PMap)
    (ticks : List (List Participant × Nat)) (pid : String) (ex : Participant) (t : Nat)
    (hget : getP m pid = some ex) (hleft : ex.leftAt = some t) :
    (∃ ex', getP (runTicks m ticks).1 pid = some ex' ∧ ex'.leftAt = some t) ∧
    ∀ e ∈ (runTicks m ticks).2, e.type = .joined → e.participant.id ≠ pid := by
  induction ticks generalizing m ex with
  | nil => exact ⟨⟨ex, by simpa [runTicks] using hget, hleft⟩, by simp [runTicks]⟩
  | cons tick rest ih =>
      obtain ⟨snaps, now⟩ := tick
      obtain ⟨⟨ex₁, hget₁, hleft₁⟩, hevs₁⟩ := pollTick_preserves m snaps now pid ex t hget hleft
      obtain ⟨⟨ex₂, hget₂, hleft₂⟩, hevs₂⟩ := ih _ ex₁ hget₁ hleft₁
      constructor
      · exact ⟨ex₂, by simp [runTicks, hget₂], hleft₂⟩
      · intro e he htype
        simp only [runTicks, List.mem_append] at he
        rcases he with he | he
        · exact hevs₁ e he htype
        · exact hevs₂ e he htype

/-- Witness for C9 at a concrete already-left participant who reappears. -/
theorem tracker_left_participant_stays_left_witness :
    (∃ ex', getP (runTicks demoLeftMap demoReappearTicks).1 "alice" = some ex' ∧
        ex'.leftAt = some 4) ∧
    ∀ e ∈ (runTicks demoLeftMap demoReappearTicks).2,
        e.type = .joined → e.participant.id ≠ "alice" :=
  tracker_left_participant_stays_left demoLeftMap demoReappearTicks "alice"
    demoLeftAlice 4 (by decide) (by decide)

/-- C1 fails on the code: a capture whose recorder reports success but
leaves a zero-byte output file is NOT treated as a failure — the handler
creates a RAW recording of size 0 and sets the meeting COMPLETED. -/
theorem capture_zero_byte_treated_as_success :
    lastMeetingStatus (processRecordingJob zeroByteCapture).trace = some .COMPLETED ∧
    lastMeetingStatus (processRecordingJob zeroByteCapture).trace ≠ some .FAILED ∧
    RecordingFx.createRecording .RAW 0 ∈ (processRecordingJob zeroByteCapture).trace ∧
    (processRecordingJob zeroByteCapture).failed = false := by
  decide

/-- C1 (amended): only a MISSING output file makes the capture handler
fail the job (readFile throws, the meeting is set FAILED and no recording
row is created); a zero-byte output file flows through the success path,
creating a RAW recording of size 0 and setting the meeting COMPLETED. -/
theorem capture_missing_file_fails_zero_byte_succeeds (i j : CaptureInput)
    (hmiss : i.outputFile = .missing)
    (hbot : j.botFound = true) (hcs : j.captureSuccess = true)
    (hzero : j.outputFile = .present 0) :
    ((processRecordingJob i).failed = true ∧
      lastMeetingStatus (processRecordingJob i).trace = some .FAILED ∧
      recordingsCreated (processRecordingJob i).trace = 0) ∧
    ((processRecordingJob j).failed = false ∧
      lastMeetingStatus (processRecordingJob j).trace = some .COMPLETED ∧
      RecordingFx.createRecording .RAW 0 ∈ (processRecordingJob j).trace) := by
  obtain ⟨bf, cs, file, har, hsc, n, fcp⟩ := i
  obtain ⟨jbf, jcs, jfile, jhar, jhsc, jn, jfcp⟩ := j
  simp only at hmiss hbot hcs hzero
  subst hmiss hbot hcs hzero
  constructor
  · cases bf <;> cases cs <;> cases hsc <;> cases fcp <;>
      simp [processRecordingJob, lastMeetingStatus, recordingsCreated]
  · cases jhar <;> cases jhsc <;> cases jfcp <;>
      simp [processRecordingJob, lastMeetingStatus]

/-- Witness for the amended C1 at concrete missing-file and zero-byte runs. -/
theorem capture_missing_file_fails_zero_byte_succeeds_witness :
    ((processRecordingJob missingFileCapture).failed = true ∧
      lastMeetingStatus (processRecordingJob missingFileCapture).trace = some .FAILED ∧
      recordingsCreated (processRecordingJob missingFileCapture).trace = 0) ∧
    ((processRecordingJob zeroByteCapture).failed = false ∧
      lastMeetingStatus (processRecordingJob zeroByteCapture).trace = some .COMPLETED ∧
      RecordingFx.createRecording .RAW 0 ∈ (processRecordingJob zeroByteCapture).trace) :=
  capture_missing_file_fails_zero_byte_succeeds missingFileCapture zeroByteCapture
    (by decide) (by decide) (by decide) (by decide)

/-- C2 fails on the code: a fully successful capture run creates the
recording and completes the meeting but enqueues zero (not one)
transcode jobs — the handler contains no encoding-queue call. -/
theorem capture_completes_without_enqueuing_transcode :
    (processRecordingJob successfulCapture).failed = false ∧
    lastMeetingStatus (processRecordingJob successfulCapture).trace = some .COMPLETED ∧
    recordingsCreated (processRecordingJob successfulCapture).trace = 1 ∧
    encodingJobsEnqueued (processRecordingJob successfulCapture).trace ≠ 1 ∧
    encodingJobsEnqueued (processRecordingJob successfulCapture).trace = 0 := by
  decide

/-- C2 (amended): the capture handler enqueues no transcode job on any
run; transcode jobs are enqueued only by `POST /jobs/encodings/start`,
which enqueues exactly one when the recording row exists and none when
it does not. -/
theorem capture_never_enqueues_transcode (i : CaptureInput) (r : RecordingRow)
    (fmt : Option String) :
    encodingJobsEnqueued (processRecordingJob i).trace = 0 ∧
    (startEncodingRoute (some r) fmt).1.length = 1 ∧
    (startEncodingRoute none fmt).1.length = 0 := by
  refine ⟨?_, rfl, rfl⟩
  obtain ⟨bf, cs, file, har, hsc, n, fcp⟩ := i
  cases bf <;> cases cs <;> cases file <;> cases har <;> cases hsc <;> cases fcp <;>
    simp [processRecordingJob, encodingJobsEnqueued]

/-- C4 fails on the code: when the encoder fails, the handler re-throws
from the catch block without deleting either staging file. -/
theorem encoding_failure_leaks_staging_files :
    (processEncodingJob failingEncode).failed = true ∧
    EncodingFx.unlinkRawFile ∉ (processEncodingJob failingEncode).trace ∧
    EncodingFx.unlinkEncodedFile ∉ (processEncodingJob failingEncode).trace := by
  decide

/-- C4 (amended): the transcode handler deletes its local staging files
only on the success path (after upload and the ENCODED update); on a
failed download or failed encode the catch block sets FAILED and
re-throws without any unlink. -/
theorem encoding_cleanup_success_path_only (i j : EncodingInput)
    (hdl : i.downloadOk = true) (henc : i.encodeSuccess = true)
    (hru : i.rawUnlinkOk = true) (heu : i.encodedUnlinkOk = true)
    (hj : j.downloadOk = false ∨ j.encodeSuccess = false) :
    ((processEncodingJob i).failed = false ∧
      EncodingFx.unlinkRawFile ∈ (processEncodingJob i).trace ∧
      EncodingFx.unlinkEncodedFile ∈ (processEncodingJob i).trace) ∧
    ((processEncodingJob j).failed = true ∧
      EncodingFx.unlinkRawFile ∉ (processEncodingJob j).trace ∧
      EncodingFx.unlinkEncodedFile ∉ (processEncodingJob j).trace) := by
  obtain ⟨d, e, sz, ru, eu⟩ := i
  obtain ⟨jd, je, jsz, jru, jeu⟩ := j
  simp only at hdl henc hru heu hj
  subst hdl henc hru heu
  constructor
  · simp [processEncodingJob]
  · rcases hj with hj | hj <;> subst hj
    · cases je <;> simp [processEncodingJob]
    · cases jd <;> simp [processEncodingJob]

/-- Witness for the amended C4 at concrete success and failure runs. -/
theorem encoding_cleanup_success_path_only_witness :
    ((processEncodingJob successfulEncode).failed = false ∧
      EncodingFx.unlinkRawFile ∈ (processEncodingJob successfulEncode).trace ∧
      EncodingFx.unlinkEncodedFile ∈ (processEncodingJob successfulEncode).trace) ∧
    ((processEncodingJob failingEncode).failed = true ∧
      EncodingFx.unlinkRawFile ∉ (processEncodingJob failingEncode).trace ∧
      EncodingFx.unlinkEncodedFile ∉ (processEncodingJob failingEncode).trace) :=
  encoding_cleanup_success_path_only successfulEncode failingEncode
    (by decide) (by decide) (by decide) (by decide) (Or.inr (by decide))

theorem chunkTicks_spec (ticks : List (Option Nat)) : ∀ index lastSize : Nat,
    (chunkTicks index lastSize ticks).1.map (·.index) =
      List.range' index (chunkTicks index lastSize ticks).1.length ∧
    (chunkTicks index lastSize ticks).2.1 =
      index + (chunkTicks index lastSize ticks).1.length ∧
    ∀ c ∈ (chunkTicks index lastSize ticks).1, c.isFinal = false := by
  induction ticks with
  | nil => intro index lastSize; simp [chunkTicks]
  | cons o rest ih =>
      intro index lastSize
      cases o with
      | none => simpa [chunkTicks] using ih index lastSize
      | some s =>
          by_cases h : lastSize < s
          · obtain ⟨h1, h2, h3⟩ := ih (index + 1) s
            refine ⟨?_, ?_, ?_⟩
            · simp only [chunkTicks, if_pos h, List.map_cons, List.length_cons, h1,
                List.range'_succ]
            · simp only [chunkTicks, if_pos h, List.length_cons, h2]
              omega
            · intro c hc
              simp only [chunkTicks, if_pos h, List.mem_cons] at hc
              rcases hc with hc | hc
              · subst hc; rfl
              · exact h3 c hc
          · simpa [chunkTicks, if_neg h] using ih index lastSize

theorem emitChunks_indices (ticks : List (Option Nat)) (fin : Option Nat) :
    (emitChunks ticks fin).map (·.index) = List.range (emitChunks ticks fin).length := by
  obtain ⟨h1, h2, _⟩ := chunkTicks_spec ticks 0 0
  cases fin with
  | none => simpa [emitChunks, List.range_eq_range'] using h1
  | some s =>
      by_cases h : (chunkTicks 0 0 ticks).2.2 < s
      · simp only [emitChunks, if_pos h, List.map_append, List.length_append,
          List.map_cons, List.map_nil, List.length_cons, List.length_nil]
        rw [h1, List.range_eq_range', h2]
        have : List.range' 0 ((chunkTicks 0 0 ticks).1.length + 1) =
            List.range' 0 (chunkTicks 0 0 ticks).1.length ++
              [(chunkTicks 0 0 ticks).1.length] := by
          rw [← List.range_eq_range', ← List.range_eq_range', List.range_succ]
        rw [this]
        simp
      · simpa [emitChunks, if_neg h, List.range_eq_range'] using h1

end Quorum

namespace Quorum

/-- C6 fails on the code: if the output file stops growing before the
recorder finishes (here: one tick streams all 5 bytes and the completed
file is still 5 bytes), the final-chunk block sends nothing and the last
chunk actually delivered carries `isFinal = false`. -/
theorem chunk_relay_last_chunk_unmarked_counterexample :
    emitChunks [some 5] (some 5) = [⟨0, 5, false⟩] ∧
    ((emitChunks [some 5] (some 5)).getLast?).map (·.isFinal) = some false := by
  decide

/-- C6 (amended): chunk indices sent for one session are exactly
0,1,2,… — strictly increasing with no gaps — and a chunk marked
`isFinal` can only be the last one; the last chunk is marked `isFinal`
exactly when the completed file still has unsent bytes (otherwise no
final chunk is sent and the last delivered chunk is unmarked; a
destination whose individual delivery fails simply misses that index). -/
theorem chunk_relay_gapless_and_final_marked (ticks : List (Option Nat)) (s : Nat)
    (hres : (chunkTicks 0 0 ticks).2.2 < s) :
    (∀ fin, (emitChunks ticks fin).map (·.index) =
        List.range (emitChunks ticks fin).length) ∧
    (∀ c ∈ emitChunks ticks (some s), c.isFinal = true →
        (emitChunks ticks (some s)).getLast? = some c) ∧
    ((emitChunks ticks (some s)).getLast?).map (·.isFinal) = some true := by
  obtain ⟨h1, h2, h3⟩ := chunkTicks_spec ticks 0 0
  refine ⟨fun fin => emitChunks_indices ticks fin, ?_, ?_⟩
  · intro c hc hfin
    simp only [emitChunks, if_pos hres, List.mem_append, List.mem_singleton] at hc
    rcases hc with hc | hc
    · exact absurd hfin (by simp [h3 c hc])
    · subst hc
      simp [emitChunks, if_pos hres, List.getLast?_concat]
  · simp [emitChunks, if_pos hres, List.getLast?_concat]

/-- Witness for the amended C6 at a concrete growing-file run. -/
theorem chunk_relay_gapless_and_final_marked_witness :
    (∀ fin, (emitChunks [some 3] fin).map (·.index) =
        List.range (emitChunks [some 3] fin).length) ∧
    (∀ c ∈ emitChunks [some 3] (some 5), c.isFinal = true →
        (emitChunks [some 3] (some 5)).getLast? = some c) ∧
    ((emitChunks [some 3] (some 5)).getLast?).map (·.isFinal) = some true :=
  chunk_relay_gapless_and_final_marked [some 3] 5 (by decide)

theorem deliverWebhookAux_all_fail (w : Webhook) (responds : Nat → Bool)
    (hfail : ∀ a, responds a = false) :
    ∀ fuel attempt, w.retryCount ≤ attempt + fuel →
      (deliverWebhookAux w responds attempt fuel).success = false ∧
      (deliverWebhookAux w responds attempt fuel).attemptsMade =
        max 1 (w.retryCount + 1 - attempt) ∧
      (deliverWebhookAux w responds attempt fuel).recordsCreated =
        max 1 (w.retryCount + 1 - attempt) ∧
      (deliverWebhookAux w responds attempt fuel).totalSleepMs =
        ((List.range' attempt (w.retryCount - attempt)).map webhookBackoffMs).sum := by
  intro fuel
  induction fuel with
  | zero =>
      intro attempt hle
      have hnlt : ¬ attempt < w.retryCount := by omega
      have hz : w.retryCount - attempt = 0 := by omega
      rw [deliverWebhookAux, if_neg (by simp [hfail]), if_neg hnlt]
      refine ⟨rfl, by simp; omega, by simp; omega, by simp [hz]⟩
  | succ f ih =>
      intro attempt hle
      by_cases hlt : attempt < w.retryCount
      · obtain ⟨ih1, ih2, ih3, ih4⟩ := ih (attempt + 1) (by omega)
        rw [deliverWebhookAux, if_neg (by simp [hfail]), if_pos hlt]
        refine ⟨ih1, ?_, ?_, ?_⟩
        · simp only [ih2]; omega
        · simp only [ih3]; omega
        · simp only [ih4]
          have hsplit : w.retryCount - attempt = (w.retryCount - (attempt + 1)) + 1 := by
            omega
          rw [hsplit, List.range'_succ, List.map_cons, List.sum_cons]
      · have hz : w.retryCount - attempt = 0 := by omega
        rw [deliverWebhookAux, if_neg (by simp [hfail]), if_neg hlt]
        refine ⟨rfl, by simp; omega, by simp; omega, by simp [hz]⟩

end Quorum

namespace Quorum

/-- C3 fails on the code: with a webhook configured for 3 attempts and
an endpoint that never accepts, `deliverWebhook` performs all 3 attempts
and 6 seconds of backoff sleep before it returns, and `trigger` awaits
that whole chain — the caller is blocked well beyond the first attempt. -/
theorem trigger_first_attempt_failure_blocks_counterexample :
    (deliverWebhook demoWebhook alwaysFails).attemptsMade = 3 ∧
    ¬ (deliverWebhook demoWebhook alwaysFails).attemptsMade ≤ 1 ∧
    (deliverWebhook demoWebhook alwaysFails).totalSleepMs = 6000 ∧
    (trigger [demoWebhook] "org_1" .MEETING_COMPLETED (fun _ _ => false)).results.map
      (·.attemptsMade) = [3] := by
  decide

/-- C3 (amended): webhook retries are awaited inline — `deliverWebhook`
sleeps the backoff and recursively re-attempts before returning, and
`trigger` returns every destination's completed run — so when every
attempt fails the caller is blocked for retryCount attempts plus the sum
of all intervening backoff sleeps. -/
theorem trigger_blocks_through_inline_retries (w : Webhook) (responds : Nat → Bool)
    (org : String) (ev : WebhookEvt)
    (hfail : ∀ a, responds a = false) (hrc : 1 ≤ w.retryCount)
    (hmatch : webhookMatches w org ev = true) :
    (deliverWebhook w responds).success = false ∧
    (deliverWebhook w responds).attemptsMade = w.retryCount ∧
    (deliverWebhook w responds).totalSleepMs =
      ((List.range' 1 (w.retryCount - 1)).map webhookBackoffMs).sum ∧
    (trigger [w] org ev (fun _ => responds)).results = [deliverWebhook w responds] := by
  obtain ⟨h1, h2, h3, h4⟩ :=
    deliverWebhookAux_all_fail w responds hfail w.retryCount 1 (by omega)
  refine ⟨h1, ?_, ?_, ?_⟩
  · rw [deliverWebhook, h2]; omega
  · rw [deliverWebhook, h4]
  · simp [trigger, webhookMatches] at hmatch ⊢
    simp [hmatch]

/-- Witness for the amended C3 at the concrete 3-attempt webhook. -/
theorem trigger_blocks_through_inline_retries_witness :
    (deliverWebhook demoWebhook alwaysFails).success = false ∧
    (deliverWebhook demoWebhook alwaysFails).attemptsMade = demoWebhook.retryCount ∧
    (deliverWebhook demoWebhook alwaysFails).totalSleepMs =
      ((List.range' 1 (demoWebhook.retryCount - 1)).map webhookBackoffMs).sum ∧
    (trigger [demoWebhook] "org_1" .MEETING_COMPLETED
        (fun _ => alwaysFails)).results = [deliverWebhook demoWebhook alwaysFails] :=
  trigger_blocks_through_inline_retries demoWebhook alwaysFails "org_1" .MEETING_COMPLETED
    (fun _ => rfl) (by decide) (by decide)

/-- C7 fails on the code: no backoff ceiling is configured anywhere —
the queue options carry only `{type, delay}` and the webhook formula is
a bare `2^attempt * 1000` — so delays keep doubling (recording-queue
retry 4 waits 40s, webhook retry 5 waits 32s) and no cap bounds them. -/
theorem backoff_no_ceiling_counterexample :
    bullmqExponentialDelayMs recordingJobOpts.delayMs 4 = 40000 ∧
    webhookBackoffMs 5 = 32000 ∧
    ¬ ∃ cap : Nat, ∀ n, webhookBackoffMs n ≤ cap := by
  refine ⟨rfl, rfl, ?_⟩
  rintro ⟨cap, hcap⟩
  have hb : cap < webhookBackoffMs (cap + 1) := by
    have hpow : cap + 1 < 2 ^ (cap + 1) := Nat.lt_two_pow (cap + 1)
    have hmul : 2 ^ (cap + 1) ≤ 2 ^ (cap + 1) * 1000 :=
      Nat.le_mul_of_pos_right _ (by norm_num)
    calc cap < cap + 1 := Nat.lt_succ_self cap
      _ < 2 ^ (cap + 1) := hpow
      _ ≤ 2 ^ (cap + 1) * 1000 := hmul
  exact absurd (hcap (cap + 1)) (Nat.not_le.mpr hb)

/-- C7 (amended): the delay before retry attempt n is `base * 2^(n-1)`
(webhooks: base 2s, hard-coded; recording queue: configured base 5s) but
it is NOT capped: no ceiling is configured, recording-queue retry 3
waits 20s and retry 4 waits 40s, and both delay sequences grow beyond
any bound. -/
theorem backoff_exponential_uncapped (n : Nat) (hn : 1 ≤ n) :
    webhookBackoffMs n = 2000 * 2 ^ (n - 1) ∧
    bullmqExponentialDelayMs recordingJobOpts.delayMs 3 = 20000 ∧
    bullmqExponentialDelayMs recordingJobOpts.delayMs 4 = 40000 ∧
    ∀ cap : Nat, ∃ m, cap < webhookBackoffMs m ∧
      cap < bullmqExponentialDelayMs recordingJobOpts.delayMs m := by
  refine ⟨?_, rfl, rfl, ?_⟩
  · obtain ⟨k, rfl⟩ : ∃ k, n = k + 1 := ⟨n - 1, by omega⟩
    rw [webhookBackoffMs, pow_succ]
    simp only [Nat.add_sub_cancel]
    ring
  · intro cap
    refine ⟨cap + 2, ?_, ?_⟩
    · have hpow : cap + 2 < 2 ^ (cap + 2) := Nat.lt_two_pow (cap + 2)
      have hmul : 2 ^ (cap + 2) ≤ 2 ^ (cap + 2) * 1000 :=
        Nat.le_mul_of_pos_right _ (by norm_num)
      calc cap < cap + 2 := by omega
        _ < 2 ^ (cap + 2) := hpow
        _ ≤ 2 ^ (cap + 2) * 1000 := hmul
    · show cap < 5000 * 2 ^ (cap + 2 - 1)
      have hpow : cap + 1 < 2 ^ (cap + 1) := Nat.lt_two_pow (cap + 1)
      have hmul : 2 ^ (cap + 1) ≤ 5000 * 2 ^ (cap + 1) :=
        Nat.le_mul_of_pos_left _ (by norm_num)
      calc cap < cap + 1 := Nat.lt_succ_self cap
        _ < 2 ^ (cap + 1) := hpow
        _ ≤ 5000 * 2 ^ (cap + 1) := hmul
        _ = 5000 * 2 ^ (cap + 2 - 1) := by norm_num

/-- Witness for the amended C7 at retry attempt 3. -/
theorem backoff_exponential_uncapped_witness :
    webhookBackoffMs 3 = 2000 * 2 ^ (3 - 1) ∧
    bullmqExponentialDelayMs recordingJobOpts.delayMs 3 = 20000 ∧
    bullmqExponentialDelayMs recordingJobOpts.delayMs 4 = 40000 ∧
    ∀ cap : Nat, ∃ m, cap < webhookBackoffMs m ∧
      cap < bullmqExponentialDelayMs recordingJobOpts.delayMs m :=
  backoff_exponential_uncapped 3 (by decide)

/-- C10: when no active webhook of the organization subscribes to the
event, `trigger` returns the empty list, creates no delivery row and
issues no HTTP request. -/
theorem trigger_no_subscriber_no_delivery (dbWebhooks : List Webhook) (org : String)
    (ev : WebhookEvt) (responds : String → Nat → Bool)
    (h : ∀ w ∈ dbWebhooks, webhookMatches w org ev = false) :
    trigger dbWebhooks org ev responds =
      { results := [], deliveryRecordsCreated := 0, httpRequestsIssued := 0 } := by
  have hfil : dbWebhooks.filter (fun w => webhookMatches w org ev) = [] :=
    List.filter_eq_nil_iff.mpr (by intro a ha; simp [h a ha])
  simp [trigger, hfil]

/-- Witness for C10: one unsubscribed active webhook and one inactive
webhook; the trigger call performs nothing. -/
theorem trigger_no_subscriber_no_delivery_witness :
    trigger [demoWebhook, demoInactiveWebhook] "org_1" .ENCODING_STARTED
        (fun _ _ => false) =
      { results := [], deliveryRecordsCreated := 0, httpRequestsIssued := 0 } :=
  trigger_no_subscriber_no_delivery [demoWebhook, demoInactiveWebhook] "org_1"
    .ENCODING_STARTED (fun _ _ => false) (by decide)

theorem sha256_standard_vectors :
    bytesToHex (sha256Bytes (strBytes "")) =
      "e3b0c44298fc1c149afbf4c8996fb92427ae41e4649b934ca495991b7852b855" ∧
    bytesToHex (sha256Bytes (strBytes "abc")) =
      "ba7816bf8f01cfea414140de5dae2223b00361a396177a9cb410ff61f20015ad" := by
  constructor <;> decide

set_option maxRecDepth 100000 in
theorem hmac_sha256_rfc4231_vector :
    bytesToHex (hmacSha256 (strBytes "Jefe") (strBytes "what do ya want for nothing?")) =
      "5bdcc146bf60754e6a042426089575c75a003f089d2739839dec58b964ec3843" := by
  decide

theorem headerValue_append (hs₁ hs₂ : List (String × String)) (k : String) :
    headerValue (hs₁ ++ hs₂) k = (headerValue hs₂ k).or (headerValue hs₁ k) := by
  unfold headerValue
  rw [List.reverse_append, List.find?_append]
  cases hs₂.reverse.find? (fun kv => kv.1 == k) <;> simp [Option.or]

end Quorum

namespace Quorum

set_option maxRecDepth 100000 in
/-- C8 fails on the code in the header name: the signature travels in
`X-Webhook-Signature`, not `X-Event-Signature` — at a concrete delivery
no `X-Event-Signature` header exists, while `X-Webhook-Signature` holds
`sha256=` + the HMAC-SHA256 hex of the exact serialized envelope (value
pinned against an independently computed digest). -/
theorem webhook_signature_header_name_counterexample :
    headerValue (webhookRequestHeaders demoWebhook demoPayload) "X-Event-Signature" = none ∧
    headerValue (webhookRequestHeaders demoWebhook demoPayload) "X-Webhook-Signature" =
      some ("sha256=" ++ generateSignature (serializeWebhookPayload demoPayload) "topsecret") ∧
    generateSignature (serializeWebhookPayload demoPayload) "topsecret" =
      "49a69521605f9c4bc68b2fa29cde353c0922cb9b6dd9b80df463112e2362ef4a" := by
  refine ⟨by decide, rfl, by decide⟩

/-- C8 (amended): for every delivery attempt the request carries the
signature in the `X-Webhook-Signature` header (unless an operator
header of the same name overrides it), in the form `sha256=<hex>` where
the hex is HMAC-SHA256 of the exact serialized `{event, timestamp,
data}` envelope keyed with the webhook's secret — and since the request
body is that same serialized string, recomputing the HMAC over the
received body with the known secret reproduces the header value. -/
theorem webhook_signature_recomputable (w : Webhook) (p : WebhookPayload)
    (hcust : headerValue w.headers "X-Webhook-Signature" = none) :
    headerValue (webhookRequestHeaders w p) "X-Webhook-Signature" =
      some ("sha256=" ++ generateSignature (webhookRequestBody p) w.secret) ∧
    generateSignature (webhookRequestBody p) w.secret =
      bytesToHex (hmacSha256 (strBytes w.secret) (strBytes (webhookRequestBody p))) := by
  constructor
  · rw [webhookRequestHeaders, headerValue_append, hcust]
    rfl
  · rfl

set_option maxRecDepth 100000 in
/-- Witness for the amended C8 at the demo webhook and payload. -/
theorem webhook_signature_recomputable_witness :
    headerValue (webhookRequestHeaders demoWebhook demoPayload) "X-Webhook-Signature" =
      some ("sha256=" ++ generateSignature (webhookRequestBody demoPayload)
        demoWebhook.secret) ∧
    generateSignature (webhookRequestBody demoPayload) demoWebhook.secret =
      bytesToHex (hmacSha256 (strBytes demoWebhook.secret)
        (strBytes (webhookRequestBody demoPayload))) :=
  webhook_signature_recomputable demoWebhook demoPayload (by decide)

end Quorum
